import Mathlib

/-!
# Verification of the modgen project toolkit

A shallow embedding of the `modgen` Python package: the project store
(`project_manager.py`), the prompt model (`prompt.py`), the response parser
(`response.py`) and the file-structure validator (`validation_engine.py`),
together with proofs of the specified properties.

Python's dynamically typed JSON-compatible values are modelled by the mutual
inductive `PyVal`/`PyList`/`PyFields`; Python exceptions by `PyErr`; fallible
code returns `Except PyErr _`; the filesystem is an explicit `FS` state that
operations thread through; the wall clock is passed explicitly (one `Nat`
argument per `datetime.now()` call in the source).
-/

/-! ## Python values -/

mutual
/-- A Python value as it can appear in project metadata or API payloads:
JSON-style data plus `obj`, an arbitrary object with no JSON encoding
(such as the `object()` used in the tests). -/
inductive PyVal where
  | none : PyVal
  | bool (b : Bool) : PyVal
  | int (n : Int) : PyVal
  | str (s : String) : PyVal
  | list (xs : PyList) : PyVal
  | dict (fs : PyFields) : PyVal
  | obj : PyVal
  deriving DecidableEq, Repr

/-- A Python list of values. -/
inductive PyList where
  | nil : PyList
  | cons (v : PyVal) (rest : PyList) : PyList
  deriving DecidableEq, Repr

/-- The entries of a Python `dict` with string keys, in insertion order. -/
inductive PyFields where
  | nil : PyFields
  | cons (k : String) (v : PyVal) (rest : PyFields) : PyFields
  deriving DecidableEq, Repr
end

namespace PyFields

/-- `d.get(k)`-style lookup: the value at the first occurrence of `k`. -/
def lookup (k : String) : PyFields → Option PyVal
  | .nil => Option.none
  | .cons k' v rest => if k' = k then some v else lookup k rest

/-- Whether the dictionary has the key `k`. -/
def hasKey (k : String) (fs : PyFields) : Bool :=
  (fs.lookup k).isSome

end PyFields

mutual
/-- `json.dumps` succeeds on the value: every leaf is JSON-encodable
(`obj` is not; everything else in the model is). -/
def serializable : PyVal → Bool
  | .obj => false
  | .list xs => serializableList xs
  | .dict fs => serializableFields fs
  | _ => true

/-- `serializable` on every element of a list. -/
def serializableList : PyList → Bool
  | .nil => true
  | .cons v rest => serializable v && serializableList rest

/-- `serializable` on every value of a dict. -/
def serializableFields : PyFields → Bool
  | .nil => true
  | .cons _ v rest => serializable v && serializableFields rest
end

/-- Python truthiness: `None`, `False`, `0`, `""`, `[]` and `{}` are falsy. -/
def truthy : PyVal → Bool
  | .none => false
  | .bool b => b
  | .int n => n != 0
  | .str s => !s.isEmpty
  | .list .nil => false
  | .list _ => true
  | .dict .nil => false
  | .dict _ => true
  | .obj => true

/-- Is the value a Python `str`? -/
def isStr : PyVal → Bool
  | .str _ => true
  | _ => false

/-- Is the value a Python `dict`? -/
def isDict : PyVal → Bool
  | .dict _ => true
  | _ => false

/-! ## Python exceptions -/

/-- The exceptions the embedded code can raise: the `modgen` taxonomy from
`exceptions.py` / `prompt.py`, plus the built-in Python exceptions that the
code lets escape (`KeyError`, `TypeError`, `ValueError`,
`json.JSONDecodeError`, `AttributeError`). -/
inductive PyErr where
  | invalidProjectName : PyErr
  | projectExists : PyErr
  | projectNotFound : PyErr
  | projectNotInitialized : PyErr
  | projectSerialization : PyErr
  | promptValidation : PyErr
  | jsonDecode : PyErr
  | keyError (k : String) : PyErr
  | typeError : PyErr
  | valueError : PyErr
  | attributeError : PyErr
  deriving DecidableEq, Repr

/-- `payload[k]` on a value: key lookup on a dict (raising `KeyError` when the
key is absent), `TypeError` on anything that is not a dict. -/
def dictGet (v : PyVal) (k : String) : Except PyErr PyVal :=
  match v with
  | .dict fs =>
    match fs.lookup k with
    | some x => .ok x
    | Option.none => .error (.keyError k)
  | _ => .error .typeError

/-- `payload.get(k, d)` on a value already known to be a dict; on a non-dict
it falls back to the default (unreachable where it is used). -/
def pyGetD (v : PyVal) (k : String) (d : PyVal) : PyVal :=
  match v with
  | .dict fs => (fs.lookup k).getD d
  | _ => d

/-- `payload.get(k, d)` as Python evaluates it: `AttributeError` when the
receiver is not a dict. -/
def pyGetAttrD (v : PyVal) (k : String) (d : PyVal) : Except PyErr PyVal :=
  match v with
  | .dict fs => .ok ((fs.lookup k).getD d)
  | _ => .error .attributeError

deriving instance DecidableEq for Except

/-! ## Filesystem model

Directories and files keyed by path strings; `Path` joins are string
concatenation with `/` (the paths the store builds contain no `.`/`..`
components, so no normalisation arises). -/

/-- The text of a stored file: either text that parses as JSON (carrying the
parsed value, which `json.dumps`/`json.loads` round-trip exactly for
serialisable values) or text that does not parse (e.g. a truncated
document left by a crashed write). -/
inductive FileContent where
  | jsonText (v : PyVal) : FileContent
  | corruptText : FileContent
  deriving DecidableEq, Repr

/-- A filesystem: a set of directory paths and a map from file paths to
contents. -/
structure FS where
  dirs : List String
  files : List (String × FileContent)
  deriving DecidableEq, Repr

namespace FS

/-- The content of the file at `p`, if one exists. -/
def fileContent (fs : FS) (p : String) : Option FileContent :=
  fs.files.lookup p

/-- `Path.is_dir()`. -/
def isDir (fs : FS) (p : String) : Bool :=
  fs.dirs.contains p

/-- `Path.exists()`: `p` is a directory or a file. -/
def pathExists (fs : FS) (p : String) : Bool :=
  fs.isDir p || (fs.fileContent p).isSome

/-- `Path.mkdir(parents=True, exist_ok=True)` for a path whose parent already
exists (the store root): record the directory. -/
def mkdir (fs : FS) (p : String) : FS :=
  if fs.dirs.contains p then fs else { fs with dirs := p :: fs.dirs }

/-- `Path.write_text`: create or overwrite the file at `p`. -/
def writeFile (fs : FS) (p : String) (c : FileContent) : FS :=
  { fs with files := (p, c) :: fs.files.filter (fun e => e.1 ≠ p) }

end FS

/-- `parent / child` on paths. -/
def joinPath (a b : String) : String := a ++ "/" ++ b

/-- `project.json`, the per-project metadata document name. -/
def PROJECT_FILE_NAME : String := "project.json"

/-! ## Timestamps

The source stores `datetime.now(timezone.utc).replace(microsecond=0)` values
and serialises them with `datetime.isoformat`, reading them back with
`datetime.fromisoformat`. A datetime is modelled as its whole-second count
since the epoch (`Nat`); `isoformat` is modelled as an injective decimal
rendering and `fromisoformat` as its partial inverse, which fails on any
string that is not such a rendering (e.g. `"not-a-date"`), mirroring
`ValueError` from `datetime.fromisoformat`. -/

/-- The character of the decimal digit `d`. -/
def digitChar (d : Nat) : Char := Char.ofNat (48 + d)

/-- The decimal digit of a character, if it is one. -/
def charDigit (c : Char) : Option Nat :=
  if 48 ≤ c.toNat ∧ c.toNat ≤ 57 then some (c.toNat - 48) else Option.none

/-- Parse every character of a run as a decimal digit. -/
def parseDigitRun : List Char → Option (List Nat)
  | [] => some []
  | c :: rest =>
    match charDigit c, parseDigitRun rest with
    | some d, some ds => some (d :: ds)
    | _, _ => Option.none

/-- The little-endian decimal digits of `n`, computed with explicit fuel
(`fuel ≥ n` is enough) so that the kernel can evaluate it. -/
def decDigitsAux : Nat → Nat → List Nat
  | 0, _ => []
  | _, 0 => []
  | fuel + 1, n => n % 10 :: decDigitsAux fuel (n / 10)

/-- The value of a little-endian decimal digit list. -/
def decValue : List Nat → Nat
  | [] => 0
  | d :: ds => d + 10 * decValue ds

/-- Model of `datetime.isoformat` on a second-precision UTC datetime:
an injective textual rendering of the model datetime. -/
def isoformat (t : Nat) : String :=
  if t = 0 then "0" else String.mk (((decDigitsAux t t).map digitChar).reverse)

/-- Model of `datetime.fromisoformat`: inverts `isoformat` and rejects any
other string. -/
def fromisoformat (s : String) : Option Nat :=
  if s.data.isEmpty then Option.none
  else (parseDigitRun s.data).map (fun ds => decValue ds.reverse)

/-! ## The slug generator (`ProjectManager._slugify`) -/

/-- Membership in the character class `[A-Za-z0-9._-]` of the first
substitution's pattern. -/
def allowedChar (c : Char) : Bool :=
  ('A' ≤ c && c ≤ 'Z') || ('a' ≤ c && c ≤ 'z') || ('0' ≤ c && c ≤ '9') ||
    c == '.' || c == '_' || c == '-'

/-- Membership in the character class `[-_.]` of the second substitution's
pattern — also the set stripped by the final `strip("-_.")`. -/
def sepChar (c : Char) : Bool :=
  c == '-' || c == '_' || c == '.'

/-- A character `str.strip()` removes: Python's string whitespace. -/
def pySpace (c : Char) : Bool :=
  c == ' ' || c == '\t' || c == '\n' || c == '\r' ||
    c == (Char.ofNat 11) || c == (Char.ofNat 12)

/-- `name.strip()`: drop leading and trailing whitespace. -/
def stripChars (p : Char → Bool) (l : List Char) : List Char :=
  ((l.dropWhile p).reverse.dropWhile p).reverse

/-- `re.sub(r"[^A-Za-z0-9._-]+", "-", ·)` character by character; the flag
records that the scanner is inside a run that has already been replaced by a
`-`. Each maximal run of disallowed characters becomes a single `-`. -/
def sub1Aux : Bool → List Char → List Char
  | _, [] => []
  | inRun, c :: rest =>
    if allowedChar c then c :: sub1Aux false rest
    else if inRun then sub1Aux true rest
    else '-' :: sub1Aux true rest

/-- `re.sub(r"[-_.]{2,}", "-", ·)` character by character; the flag records
that the scanner is inside a run of separator characters that has already
been replaced by a `-`. Each maximal run of two or more characters from
`[-_.]` becomes a single `-`; an isolated separator is kept. -/
def sub2Aux : Bool → List Char → List Char
  | _, [] => []
  | true, c :: rest =>
    if sepChar c then sub2Aux true rest else c :: sub2Aux false rest
  | false, c :: rest =>
    if sepChar c then
      match rest with
      | [] => [c]
      | d :: _ =>
        if sepChar d then '-' :: sub2Aux true rest else c :: sub2Aux false rest
    else c :: sub2Aux false rest

/-- The character pipeline of `_slugify`: strip whitespace, replace runs of
disallowed characters, collapse separator runs, strip `-_.` at the ends. -/
def slugifyChars (l : List Char) : List Char :=
  stripChars sepChar (sub2Aux false (sub1Aux false (stripChars pySpace l)))

/-- `ProjectManager._slugify`: `InvalidProjectNameError` on a non-string name
(`isinstance` check) and on an empty result. -/
def slugify (name : PyVal) : Except PyErr String :=
  match name with
  | .str s =>
    let slug := slugifyChars s.data
    if slug.isEmpty then .error .invalidProjectName
    else .ok (String.mk slug)
  | _ => .error .invalidProjectName

/-! ## The project record (`Project`) -/

/-- The `Project` dataclass. `name`, `description` and `metadata` are
dynamically typed in the source (`from_dict` copies whatever the document
holds), so they are `PyVal`; `path` is the string of the `Path`;
the timestamps are model datetimes. -/
structure Project where
  name : PyVal
  path : String
  description : PyVal
  metadata : PyVal
  created_at : Nat
  updated_at : Nat
  deriving DecidableEq, Repr

namespace Project

/-- Construction with the dataclass's default factories: both timestamp
fields default to `datetime.now(...)`, evaluated once each, in field order. -/
def make (name : PyVal) (path : String) (description metadata : PyVal)
    (nowCreated nowUpdated : Nat) : Project :=
  ⟨name, path, description, metadata, nowCreated, nowUpdated⟩

/-- `Project.to_dict`. -/
def to_dict (p : Project) : PyVal :=
  .dict (.cons "name" p.name
    (.cons "path" (.str p.path)
      (.cons "description" p.description
        (.cons "metadata" p.metadata
          (.cons "created_at" (.str (isoformat p.created_at))
            (.cons "updated_at" (.str (isoformat p.updated_at)) .nil))))))

/-- One timestamp read inside `from_dict`'s `try` block:
`datetime.fromisoformat(payload[k])`, with `KeyError` surfaced as
`ProjectNotInitializedError` and `ValueError` as
`ProjectSerializationError` by the surrounding handlers; a non-string
value makes `fromisoformat` raise `TypeError`, which no handler catches. -/
def parseTsField (payload : PyVal) (k : String) : Except PyErr Nat :=
  match dictGet payload k with
  | .error (.keyError _) => .error .projectNotInitialized
  | .error e => .error e
  | .ok (.str s) =>
    match fromisoformat s with
    | some t => .ok t
    | Option.none => .error .projectSerialization
  | .ok _ => .error .typeError

/-- `Path(x)` applied to a document value: only strings are paths here;
anything else raises `TypeError`. -/
def pathOfPy : PyVal → Except PyErr String
  | .str s => .ok s
  | _ => .error .typeError

/-- `Project.from_dict`: the timestamps are read first inside the `try`
block; the remaining fields are read while building the dataclass call, so a
missing `name` or `path` escapes as a plain `KeyError`. -/
def from_dict (payload : PyVal) : Except PyErr Project := do
  let created ← parseTsField payload "created_at"
  let updated ← parseTsField payload "updated_at"
  let name ← dictGet payload "name"
  let pathVal ← dictGet payload "path"
  let path ← pathOfPy pathVal
  let description := pyGetD payload "description" (.str "")
  let metadata := pyGetD payload "metadata" (.dict .nil)
  pure ⟨name, path, description, metadata, created, updated⟩

end Project

/-! ## The project store (`ProjectManager`)

Each operation takes the store root as a parameter (the `_root` attribute)
and threads the filesystem; `datetime.now()` readings are explicit `Nat`
arguments in source order. -/

/-- `ProjectManager._project_path_for_name`. -/
def project_path_for_name (root : String) (name : PyVal) : Except PyErr String :=
  (slugify name).map (fun slug => joinPath root slug)

/-- `ProjectManager._ensure_json_serializable` as a check:
`json.dumps(metadata)` succeeds iff the value is serialisable. -/
def ensure_json_serializable (metadata : PyVal) : Except PyErr Unit :=
  if serializable metadata then .ok () else .error .projectSerialization

/-- `ProjectManager.save_project`. Mutates `project.updated_at` to the
current time *before* validating the metadata, so the updated in-memory
record is returned even when the call fails; on the serialization failure
the filesystem is untouched. The final `json.dumps(payload)` itself raises
`TypeError` if some non-metadata field is unserialisable (uncaught in the
source). -/
def save_project (fs : FS) (project : Project) (now : Nat) :
    FS × Project × Except PyErr Unit :=
  let project := { project with updated_at := now }
  let payload := project.to_dict
  if serializable project.metadata then
    let metadata_path := joinPath project.path PROJECT_FILE_NAME
    let fs := fs.mkdir project.path
    if serializable payload then
      (fs.writeFile metadata_path (.jsonText payload), project, .ok ())
    else (fs, project, .error .typeError)
  else (fs, project, .error .projectSerialization)

/-- `ProjectManager.create_project`. `tCreated`, `tUpdated` are the two
`datetime.now()` readings of the dataclass default factories (field order);
`tSave` is the reading inside `save_project`. -/
def create_project (fs : FS) (root : String) (name : String)
    (description : String) (metadata : Option PyVal) (overwrite : Bool)
    (tCreated tUpdated tSave : Nat) : FS × Except PyErr Project :=
  match project_path_for_name root (.str name) with
  | .error e => (fs, .error e)
  | .ok project_path =>
    if fs.pathExists project_path && !overwrite then
      (fs, .error .projectExists)
    else
      let fs := fs.mkdir project_path
      let project_metadata := metadata.getD (.dict .nil)
      let project : Project :=
        Project.make (.str name) project_path (.str description)
          project_metadata tCreated tUpdated
      match save_project fs project tSave with
      | (fs, project, .ok _) => (fs, .ok project)
      | (fs, _, .error e) => (fs, .error e)

/-- `ProjectManager.load_project`. A corrupt document makes `json.loads`
raise `json.JSONDecodeError` (uncaught in the source). -/
def load_project (fs : FS) (root : String) (name : String) :
    Except PyErr Project := do
  let project_path ← project_path_for_name root (.str name)
  if !fs.pathExists project_path then .error .projectNotFound
  else
    let metadata_path := joinPath project_path PROJECT_FILE_NAME
    match fs.fileContent metadata_path with
    | Option.none => .error .projectNotInitialized
    | some .corruptText => .error .jsonDecode
    | some (.jsonText payload) => do
      let project ← Project.from_dict payload
      pure { project with path := project_path }

/-! ## The prompt model (`prompt.py`) -/

/-- `_ALLOWED_ROLES`. -/
def ALLOWED_ROLES : List PyVal :=
  [.str "system", .str "user", .str "assistant", .str "tool"]

/-- `PromptMessage`: `role` and `content` are unannotated/`Any` at runtime,
so they are `PyVal`s; a frozen dataclass, constructed only through `make`. -/
structure PromptMessage where
  role : PyVal
  content : PyVal
  name : PyVal
  deriving DecidableEq, Repr

/-- `PromptMessage(...)` construction including `__post_init__` validation:
the role must be one of the allowed roles and the content must not be
`None`; violations raise `PromptValidationError` and produce no object. -/
def PromptMessage.make (role content : PyVal) (name : PyVal := .none) :
    Except PyErr PromptMessage :=
  if role ∉ ALLOWED_ROLES then .error .promptValidation
  else if content = .none then .error .promptValidation
  else .ok ⟨role, content, name⟩

/-- The reserved payload keys of `StructuredPrompt.__post_init__`. -/
def RESERVED_KEYS : List String :=
  ["model", "messages", "temperature", "max_tokens", "response_format"]

/-- `StructuredPrompt` (frozen dataclass); the optional generation
parameters are carried opaquely (`.none` when absent). -/
structure StructuredPrompt where
  model : String
  messages : List PromptMessage
  temperature : PyVal
  max_tokens : PyVal
  response_format : PyVal
  extra_parameters : PyFields
  deriving DecidableEq, Repr

/-- The keys of a dict, in order. -/
def PyFields.keys : PyFields → List String
  | .nil => []
  | .cons k _ rest => k :: keys rest

/-- `StructuredPrompt(...)` construction including `__post_init__`
validation: non-empty model, non-empty messages, and no extra-parameter key
in the reserved set; violations raise `PromptValidationError` and produce no
object. -/
def StructuredPrompt.make (model : String) (messages : List PromptMessage)
    (temperature : PyVal := .none) (max_tokens : PyVal := .none)
    (response_format : PyVal := .none) (extra_parameters : PyFields := .nil) :
    Except PyErr StructuredPrompt :=
  if model = "" then .error .promptValidation
  else if messages = [] then .error .promptValidation
  else if extra_parameters.keys.any (fun k => RESERVED_KEYS.contains k) then
    .error .promptValidation
  else .ok ⟨model, messages, temperature, max_tokens, response_format,
    extra_parameters⟩

/-! ## The response parser (`response.py`) -/

/-- `PyList` as a Lean list. -/
def PyList.toList : PyList → List PyVal
  | .nil => []
  | .cons v rest => v :: toList rest

/-- Iterating a Python value (the `for choice in choices_raw` loop): lists
yield elements, dicts their keys, strings their characters; other values
raise `TypeError`. -/
def pyIter : PyVal → Except PyErr (List PyVal)
  | .list xs => .ok xs.toList
  | .dict fs => .ok (fs.keys.map (fun k => .str k))
  | .str s => .ok (s.data.map (fun c => .str (String.mk [c])))
  | _ => .error .typeError

/-- `int(x)`: identity on ints, `0`/`1` on bools, decimal parse of strings
(`ValueError` on failure), `TypeError` on anything else. -/
def pyInt : PyVal → Except PyErr Int
  | .int n => .ok n
  | .bool b => .ok (if b then 1 else 0)
  | .str s =>
    match parseDigitRun s.data with
    | some (d :: ds) => .ok (Int.ofNat (Nat.ofDigits 10 (d :: ds).reverse))
    | _ => .error .valueError
  | _ => .error .typeError

/-- `str(x)`: a total textual rendering. -/
def pyStrOf : PyVal → String
  | .str s => s
  | .none => "None"
  | .bool b => if b then "True" else "False"
  | .int n => toString n
  | .list _ => "<list>"
  | .dict _ => "<dict>"
  | .obj => "<object>"

/-- `Usage`. -/
structure Usage where
  prompt_tokens : Int
  completion_tokens : Int
  total_tokens : Int
  deriving DecidableEq, Repr

/-- `Usage.from_dict`. -/
def Usage.from_dict (data : PyVal) : Except PyErr Usage := do
  let p ← pyInt (pyGetD data "prompt_tokens" (.int 0))
  let c ← pyInt (pyGetD data "completion_tokens" (.int 0))
  let t ← pyInt (pyGetD data "total_tokens" (.int 0))
  pure ⟨p, c, t⟩

/-- `Choice`. -/
structure Choice where
  index : Int
  message : PromptMessage
  finish_reason : PyVal
  deriving DecidableEq, Repr

/-- `Choice.from_dict`: `data.get("message") or {}`, then a `PromptMessage`
is constructed (its validation can raise), then the index is converted. -/
def Choice.from_dict (data : PyVal) : Except PyErr Choice := do
  let rawMessage ← pyGetAttrD data "message" .none
  let message_payload := if truthy rawMessage then rawMessage else .dict .nil
  let role ← pyGetAttrD message_payload "role" (.str "assistant")
  let content ← pyGetAttrD message_payload "content" (.str "")
  let nm ← pyGetAttrD message_payload "name" .none
  let message ← PromptMessage.make role content nm
  let index ← pyInt (← pyGetAttrD data "index" (.int 0))
  let finish ← pyGetAttrD data "finish_reason" .none
  pure ⟨index, message, finish⟩

/-- `OpenAIResponse`. -/
structure OpenAIResponse where
  id : String
  model : String
  choices : List Choice
  usage : Option Usage
  created : PyVal
  deriving DecidableEq, Repr

/-- `OpenAIResponse.from_dict`: `payload.get("choices") or []` guards the
missing/falsy case, each choice is parsed, and `usage` is parsed only when
the value is a dict (absent or non-dict values yield `usage = None`). -/
def OpenAIResponse.from_dict (payload : PyVal) : Except PyErr OpenAIResponse := do
  let rawChoices ← pyGetAttrD payload "choices" .none
  let choices_raw := if truthy rawChoices then rawChoices else .list .nil
  let elems ← pyIter choices_raw
  let choices ← elems.mapM Choice.from_dict
  let usage_payload ← pyGetAttrD payload "usage" .none
  let usage ← match usage_payload with
    | .dict fs => (Usage.from_dict (.dict fs)).map some
    | _ => pure Option.none
  let idVal ← pyGetAttrD payload "id" (.str "")
  let modelVal ← pyGetAttrD payload "model" (.str "")
  let created ← pyGetAttrD payload "created" .none
  pure ⟨pyStrOf idVal, pyStrOf modelVal, choices, usage, created⟩

/-! ## The validation engine (`validation_engine.py`) -/

/-- `ValidationIssue` as produced by `validate_file_structure` (its issues
carry no line/column, so those fields are omitted here). -/
structure VIssue where
  message : String
  path : Option String
  deriving DecidableEq, Repr

/-- `entry.rstrip("/")`. -/
def rstripSlashes (s : String) : String :=
  String.mk ((s.data.reverse.dropWhile (fun c => c = '/')).reverse)

/-- `entry.endswith("/")`. -/
def endsWithSlash (s : String) : Bool :=
  s.data.getLast? = some '/'

/-- `root_path / Path(normalized_entry)`: `Path("")` is `.`, so an entry
that normalises to the empty string resolves to the root itself. -/
def resolveEntry (root normalized : String) : String :=
  if normalized = "" then root else joinPath root normalized

/-- The body of the `for entry in expected_entries` loop: the issues the
entry contributes. -/
def entryIssues (fs : FS) (root : String) (entry : String) : List VIssue :=
  let normalized_entry := rstripSlashes entry
  let expected_path := resolveEntry root normalized_entry
  if endsWithSlash entry then
    if !fs.pathExists expected_path then
      [⟨"Missing directory: " ++ expected_path, some expected_path⟩]
    else if !fs.isDir expected_path then
      [⟨"Expected directory but found file: " ++ expected_path,
        some expected_path⟩]
    else []
  else
    if !fs.pathExists expected_path then
      [⟨"Missing file: " ++ expected_path, some expected_path⟩]
    else if fs.isDir expected_path then
      [⟨"Expected file but found directory: " ++ expected_path,
        some expected_path⟩]
    else []

/-- `ValidationEngine.validate_file_structure`, returning the issue list of
the `ValidationResult` (valid ⇔ empty). -/
def validate_file_structure (fs : FS) (root : String)
    (expected_entries : List String) : List VIssue :=
  if !fs.pathExists root then
    [⟨"Root path does not exist: " ++ root, some root⟩]
  else
    expected_entries.flatMap (entryIssues fs root)

/-- Spec wording of when an entry is defective: the entry is absent, or its
actual kind (file vs. directory) mismatches the expected kind, where an
entry ending in a path separator denotes an expected directory and any
other entry an expected file. -/
def entryBad (fs : FS) (root entry : String) : Bool :=
  let p := resolveEntry root (rstripSlashes entry)
  if endsWithSlash entry then !fs.pathExists p || !fs.isDir p
  else !fs.pathExists p || fs.isDir p

/-- The maximal runs of a string under a classification `p`: each run is a
maximal block of adjacent characters on which `p` is constant. -/
def classRuns (p : Char → Bool) : List Char → List (List Char)
  | [] => []
  | c :: rest =>
    (c :: rest.takeWhile (fun d => p d == p c)) ::
      classRuns p (rest.dropWhile (fun d => p d == p c))
termination_by l => l.length
decreasing_by
  simp only [List.length_cons]
  have h : ∀ l : List Char, (l.dropWhile (fun d => p d == p c)).length ≤ l.length := by
    intro l
    induction l with
    | nil => simp
    | cons e t ih =>
      rw [List.dropWhile_cons]
      by_cases he : (p e == p c) = true
      · simp only [he, if_true]
        exact le_trans ih (by simp)
      · simp [he]
  have := h rest
  omega
/-- Keep a run of allowed characters, replace a run of disallowed ones by a
single `-`. -/
def keepOrDash (r : List Char) : List Char :=
  match r with
  | [] => []
  | c :: _ => if allowedChar c then r else ['-']

/-- Spec wording of the first substitution: replace every maximal run of
characters outside `[A-Za-z0-9._-]` with a single `-`. -/
def replaceBadRuns (l : List Char) : List Char :=
  (classRuns allowedChar l).flatMap keepOrDash

/-- Keep a run unless it consists of two or more separator characters, in
which case it becomes a single `-`. -/
def collapseRun (r : List Char) : List Char :=
  match r with
  | [] => []
  | [c] => [c]
  | c :: _ :: _ => if sepChar c then ['-'] else r

/-- Spec wording of the second substitution: collapse every run of two or
more characters drawn from `{-, _, .}` into a single `-`. -/
def collapseSepRuns (l : List Char) : List Char :=
  (classRuns sepChar l).flatMap collapseRun

/-- Spec wording of the whole algorithm, on characters. -/
def specSlugifyChars (l : List Char) : List Char :=
  stripChars sepChar (collapseSepRuns (replaceBadRuns (stripChars pySpace l)))

/-- Spec wording of `slugify`: non-string input or an empty result fail with
`InvalidProjectNameError`. -/
def specSlugify (name : PyVal) : Except PyErr String :=
  match name with
  | .str s =>
    let slug := specSlugifyChars s.data
    if slug.isEmpty then .error .invalidProjectName
    else .ok (String.mk slug)
  | _ => .error .invalidProjectName

/-! ## Timestamp round-trip lemmas -/

theorem decDigitsAux_eq_digits :
    ∀ (fuel n : Nat), n ≤ fuel → decDigitsAux fuel n = Nat.digits 10 n := by
  intro fuel
  induction fuel with
  | zero =>
    intro n h
    interval_cases n
    simp [decDigitsAux]
  | succ fuel ih =>
    intro n h
    match n with
    | 0 => simp [decDigitsAux]
    | m + 1 =>
      have hdiv : (m + 1) / 10 < m + 1 := Nat.div_lt_self (Nat.succ_pos m) (by norm_num)
      rw [decDigitsAux, Nat.digits_def' (by norm_num : 1 < 10) (Nat.succ_pos m),
        ih ((m + 1) / 10) (by omega)]
      omega

theorem decValue_eq_ofDigits (l : List Nat) : decValue l = Nat.ofDigits 10 l := by
  induction l with
  | nil => simp [decValue, Nat.ofDigits_nil]
  | cons d ds ih => simp [decValue, Nat.ofDigits_cons, ih]

theorem charDigit_digitChar {d : Nat} (h : d < 10) :
    charDigit (digitChar d) = some d := by
  interval_cases d <;> decide

theorem parseDigitRun_map_digitChar :
    ∀ (l : List Nat), (∀ d ∈ l, d < 10) → parseDigitRun (l.map digitChar) = some l := by
  intro l
  induction l with
  | nil => intro _; rfl
  | cons d ds ih =>
    intro h
    rw [List.map_cons, parseDigitRun, charDigit_digitChar (h d (by simp)),
      ih (fun e he => h e (by simp [he]))]

theorem fromisoformat_isoformat (t : Nat) : fromisoformat (isoformat t) = some t := by
  by_cases h : t = 0
  · subst h; decide
  · have hdig : decDigitsAux t t = Nat.digits 10 t := decDigitsAux_eq_digits t t le_rfl
    have hne : Nat.digits 10 t ≠ [] := Nat.digits_ne_nil_iff_ne_zero.mpr h
    unfold isoformat fromisoformat
    rw [if_neg h, hdig]
    have hdata : (String.mk (((Nat.digits 10 t).map digitChar).reverse)).data
        = ((Nat.digits 10 t).map digitChar).reverse := rfl
    rw [hdata, ← List.map_reverse]
    rw [if_neg (by simp [List.isEmpty_iff, hne])]
    rw [parseDigitRun_map_digitChar _
      (fun d hd => Nat.digits_lt_base (by norm_num) (List.mem_reverse.mp hd))]
    simp [decValue_eq_ofDigits, Nat.ofDigits_digits]

/-! ## Document and store round-trip lemmas -/

theorem Project.from_dict_to_dict (p : Project) :
    Project.from_dict p.to_dict = .ok p := by
  unfold Project.from_dict Project.to_dict parseTsField
  simp [dictGet, pyGetD, PyFields.lookup, fromisoformat_isoformat, pathOfPy,
    Except.bind, bind]
  rfl

theorem FS.pathExists_mkdir (fs : FS) (p : String) :
    (fs.mkdir p).pathExists p = true := by
  unfold FS.mkdir FS.pathExists FS.isDir
  split <;> simp_all

theorem FS.fileContent_writeFile (fs : FS) (p : String) (c : FileContent) :
    (fs.writeFile p c).fileContent p = some c := by
  unfold FS.writeFile FS.fileContent
  simp [List.lookup]

theorem FS.isDir_writeFile (fs : FS) (p q : String) (c : FileContent) :
    (fs.writeFile p c).isDir q = fs.isDir q := rfl

theorem FS.pathExists_writeFile_of_isDir (fs : FS) (p q : String)
    (c : FileContent) (h : fs.isDir q = true) :
    (fs.writeFile p c).pathExists q = true := by
  unfold FS.pathExists
  rw [FS.isDir_writeFile, h]
  rfl

theorem FS.isDir_mkdir_self (fs : FS) (p : String) :
    (fs.mkdir p).isDir p = true := by
  unfold FS.mkdir FS.isDir
  split <;> simp_all

theorem serializable_to_dict (p : Project) :
    serializable p.to_dict
      = (serializable p.name && (serializable p.description && serializable p.metadata)) := by
  simp [Project.to_dict, serializable, serializableFields]

theorem save_project_eq_of_serializable (fs : FS) (p : Project) (now : Nat)
    (hm : serializable p.metadata = true)
    (hp : serializable (Project.to_dict { p with updated_at := now }) = true) :
    save_project fs p now =
      ((fs.mkdir p.path).writeFile (joinPath p.path PROJECT_FILE_NAME)
          (.jsonText (Project.to_dict { p with updated_at := now })),
        { p with updated_at := now }, .ok ()) := by
  unfold save_project
  simp [hm, hp]

theorem save_project_ok_inv (fs : FS) (p : Project) (now : Nat) (fs' : FS)
    (p' : Project) (h : save_project fs p now = (fs', p', .ok ())) :
    serializable p.metadata = true
      ∧ serializable (Project.to_dict { p with updated_at := now }) = true
      ∧ p' = { p with updated_at := now }
      ∧ fs' = (fs.mkdir p.path).writeFile (joinPath p.path PROJECT_FILE_NAME)
          (.jsonText (Project.to_dict { p with updated_at := now })) := by
  unfold save_project at h
  dsimp only at h
  split at h
  · split at h
    · injection h with h1 h2
      injection h2 with h3 h4
      exact ⟨by assumption, by assumption, h3.symm, h1.symm⟩
    · injection h with h1 h2
      injection h2 with h3 h4
      cases h4
  · injection h with h1 h2
    injection h2 with h3 h4
    cases h4

theorem load_after_save (fs : FS) (p : Project) (now : Nat)
    (root name slug : String) (fs' : FS) (p' : Project)
    (hslug : slugify (.str name) = .ok slug)
    (hpath : p.path = joinPath root slug)
    (hsave : save_project fs p now = (fs', p', .ok ())) :
    load_project fs' root name = .ok p' := by
  obtain ⟨hm, hp, hp', hfs'⟩ := save_project_ok_inv fs p now fs' p' hsave
  subst hp' hfs'
  unfold load_project project_path_for_name
  rw [hslug]
  simp only [Except.map, Except.bind, bind, ← hpath]
  rw [FS.pathExists_writeFile_of_isDir _ _ _ _ (FS.isDir_mkdir_self fs p.path)]
  simp [FS.fileContent_writeFile, Project.from_dict_to_dict, Except.bind, bind]
  rfl

theorem FS.files_mkdir (fs : FS) (p : String) : (fs.mkdir p).files = fs.files := by
  unfold FS.mkdir
  split <;> rfl

theorem create_project_ok_inv (fs : FS) (root name desc : String)
    (meta : Option PyVal) (ow : Bool) (tc tu ts : Nat) (fs' : FS) (p : Project)
    (h : create_project fs root name desc meta ow tc tu ts = (fs', .ok p)) :
    ∃ slug, slugify (.str name) = .ok slug
      ∧ save_project (fs.mkdir (joinPath root slug))
          (Project.make (.str name) (joinPath root slug) (.str desc)
            (meta.getD (.dict .nil)) tc tu) ts = (fs', p, .ok ()) := by
  unfold create_project project_path_for_name at h
  cases hs : slugify (.str name) with
  | error e => rw [hs] at h; simp [Except.map] at h
  | ok slug =>
    rw [hs] at h
    simp only [Except.map] at h
    split at h
    · simp at h
    · split at h
      next fs2 p2 u heq =>
        injection h with h1 h2
        injection h2 with h3
        refine ⟨slug, rfl, ?_⟩
        rw [heq, h1, h3]
      next fs2 p2 e heq =>
        injection h with h1 h2
        cases h2

theorem create_project_serialization (fs : FS) (root name desc : String)
    (meta : Option PyVal) (ow : Bool) (tc tu ts : Nat) (slug : String)
    (hslug : slugify (.str name) = .ok slug)
    (hfree : (fs.pathExists (joinPath root slug) && !ow) = false)
    (hm : serializable (meta.getD (.dict .nil)) = false) :
    create_project fs root name desc meta ow tc tu ts
      = (fs.mkdir (joinPath root slug), .error .projectSerialization) := by
  unfold create_project project_path_for_name
  rw [hslug]
  simp only [Except.map, hfree]
  unfold save_project
  simp [Project.make, hm]

theorem load_project_not_found (fs : FS) (root name slug : String)
    (hslug : slugify (.str name) = .ok slug)
    (hex : fs.pathExists (joinPath root slug) = false) :
    load_project fs root name = .error .projectNotFound := by
  unfold load_project project_path_for_name
  rw [hslug]
  simp [Except.map, Except.bind, bind, hex]

theorem load_project_not_initialized (fs : FS) (root name slug : String)
    (hslug : slugify (.str name) = .ok slug)
    (hex : fs.pathExists (joinPath root slug) = true)
    (hfile : fs.fileContent (joinPath (joinPath root slug) PROJECT_FILE_NAME)
      = Option.none) :
    load_project fs root name = .error .projectNotInitialized := by
  unfold load_project project_path_for_name
  rw [hslug]
  simp [Except.map, Except.bind, bind, hex, hfile]

theorem load_project_corrupt (fs : FS) (root name slug : String)
    (hslug : slugify (.str name) = .ok slug)
    (hex : fs.pathExists (joinPath root slug) = true)
    (hfile : fs.fileContent (joinPath (joinPath root slug) PROJECT_FILE_NAME)
      = some .corruptText) :
    load_project fs root name = .error .jsonDecode := by
  unfold load_project project_path_for_name
  rw [hslug]
  simp [Except.map, Except.bind, bind, hex, hfile]

theorem load_project_doc (fs : FS) (root name slug : String) (payload : PyVal)
    (hslug : slugify (.str name) = .ok slug)
    (hex : fs.pathExists (joinPath root slug) = true)
    (hfile : fs.fileContent (joinPath (joinPath root slug) PROJECT_FILE_NAME)
      = some (.jsonText payload)) :
    load_project fs root name = (Project.from_dict payload).bind
      (fun pr => .ok { pr with path := joinPath root slug }) := by
  unfold load_project project_path_for_name
  rw [hslug]
  simp [Except.map, Except.bind, bind, hex, hfile]
  cases Project.from_dict payload <;> rfl

theorem from_dict_missing_created (fields : PyFields)
    (hc : fields.lookup "created_at" = Option.none) :
    Project.from_dict (.dict fields) = .error .projectNotInitialized := by
  unfold Project.from_dict Project.parseTsField
  simp [dictGet, hc, Except.bind, bind]

theorem from_dict_bad_timestamp (fields : PyFields) (s : String)
    (hc : fields.lookup "created_at" = some (.str s))
    (hbad : fromisoformat s = Option.none) :
    Project.from_dict (.dict fields) = .error .projectSerialization := by
  unfold Project.from_dict Project.parseTsField
  simp [dictGet, hc, hbad, Except.bind, bind]

theorem from_dict_missing_name (fields : PyFields) (s1 s2 : String) (t1 t2 : Nat)
    (hc : fields.lookup "created_at" = some (.str s1))
    (ht1 : fromisoformat s1 = some t1)
    (hu : fields.lookup "updated_at" = some (.str s2))
    (ht2 : fromisoformat s2 = some t2)
    (hn : fields.lookup "name" = Option.none) :
    Project.from_dict (.dict fields) = .error (.keyError "name") := by
  unfold Project.from_dict Project.parseTsField
  simp [dictGet, hc, ht1, hu, ht2, hn, Except.bind, bind]

/-! ## The slug algorithm as the specification words it

The spec describes `_slugify` as: trim whitespace; replace every maximal run
of characters outside `[A-Za-z0-9._-]` with a single `-`; collapse every run
of two or more characters from `{-, _, .}` into a single `-`; strip leading
and trailing `-`, `_`, `.`. The run-based phrasing is formalised with
`classRuns` below, and proved equal to the scanner embedded from the
source. -/

theorem dropWhile_length_le (p : Char → Bool) (l : List Char) :
    (l.dropWhile p).length ≤ l.length := by
  induction l with
  | nil => simp
  | cons c rest ih =>
    by_cases h : p c
    · rw [List.dropWhile_cons_of_pos h]
      exact le_trans ih (by simp)
    · rw [List.dropWhile_cons_of_neg h]

theorem classRuns_nil (p : Char → Bool) : classRuns p [] = [] := by
  rw [classRuns]

theorem classRuns_cons (p : Char → Bool) (c : Char) (rest : List Char) :
    classRuns p (c :: rest)
      = (c :: rest.takeWhile (fun d => p d == p c))
          :: classRuns p (rest.dropWhile (fun d => p d == p c)) := by
  rw [classRuns]

theorem keepOrDash_cons_allowed {c : Char} (h : allowedChar c = true)
    (t : List Char) : keepOrDash (c :: t) = c :: t := by
  simp [keepOrDash, h]

theorem keepOrDash_cons_bad {c : Char} (h : allowedChar c = false)
    (t : List Char) : keepOrDash (c :: t) = ['-'] := by
  simp [keepOrDash, h]

theorem sub1Aux_cons (b : Bool) (c : Char) (rest : List Char) :
    sub1Aux b (c :: rest)
      = if allowedChar c then c :: sub1Aux false rest
        else if b then sub1Aux true rest else '-' :: sub1Aux true rest := by
  cases b <;> rfl

theorem replaceBadRuns_split (rest : List Char) :
    rest.takeWhile allowedChar
        ++ (classRuns allowedChar (rest.dropWhile allowedChar)).flatMap keepOrDash
      = replaceBadRuns rest := by
  cases rest with
  | nil => simp [replaceBadRuns, classRuns_nil]
  | cons d rest' =>
    by_cases hd : allowedChar d
    · rw [List.takeWhile_cons_of_pos hd, List.dropWhile_cons_of_pos hd]
      unfold replaceBadRuns
      rw [classRuns_cons]
      simp only [hd, beq_true, List.flatMap_cons, keepOrDash_cons_allowed hd]
    · rw [List.takeWhile_cons_of_neg hd, List.dropWhile_cons_of_neg hd]
      simp [replaceBadRuns]

theorem replaceBadRuns_cons_allowed {c : Char} (h : allowedChar c = true)
    (rest : List Char) :
    replaceBadRuns (c :: rest) = c :: replaceBadRuns rest := by
  unfold replaceBadRuns
  rw [classRuns_cons]
  simp only [h, beq_true, List.flatMap_cons, keepOrDash_cons_allowed h]
  rw [List.cons_append, replaceBadRuns_split rest]
  rfl

theorem replaceBadRuns_cons_bad {c : Char} (h : allowedChar c = false)
    (rest : List Char) :
    replaceBadRuns (c :: rest)
      = '-' :: replaceBadRuns (rest.dropWhile (fun d => !allowedChar d)) := by
  unfold replaceBadRuns
  rw [classRuns_cons]
  simp only [h, beq_false, List.flatMap_cons, keepOrDash_cons_bad h]
  rfl

theorem sub1Aux_true_eq (l : List Char) :
    sub1Aux true l = sub1Aux false (l.dropWhile (fun d => !allowedChar d)) := by
  induction l with
  | nil => rfl
  | cons c rest ih =>
    by_cases hc : allowedChar c
    · rw [List.dropWhile_cons_of_neg (by simp [hc]), sub1Aux_cons, sub1Aux_cons,
        if_pos hc, if_pos hc]
    · rw [List.dropWhile_cons_of_pos (by simp [hc]), sub1Aux_cons,
        if_neg hc, if_pos rfl, ih]

theorem sub1Aux_eq_replaceBadRuns (l : List Char) :
    sub1Aux false l = replaceBadRuns l := by
  have main : ∀ n, ∀ l : List Char, l.length ≤ n →
      sub1Aux false l = replaceBadRuns l := by
    intro n
    induction n with
    | zero =>
      intro l hl
      match l with
      | [] => simp [sub1Aux, replaceBadRuns, classRuns_nil]
      | _ :: _ => simp at hl
    | succ n ih =>
      intro l hl
      match l with
      | [] => simp [sub1Aux, replaceBadRuns, classRuns_nil]
      | c :: rest =>
        by_cases hc : allowedChar c
        · rw [replaceBadRuns_cons_allowed hc, sub1Aux_cons, if_pos hc,
            ih rest (by simp at hl; omega)]
        · rw [replaceBadRuns_cons_bad (by simp [hc]), sub1Aux_cons, if_neg hc,
            if_neg (by simp), sub1Aux_true_eq,
            ih (rest.dropWhile (fun d => !allowedChar d)) (by
              have := dropWhile_length_le (fun d => !allowedChar d) rest
              simp at hl
              omega)]
  exact main l.length l le_rfl

theorem collapseRun_notsep {c : Char} (h : sepChar c = false) (t : List Char) :
    collapseRun (c :: t) = c :: t := by
  cases t <;> simp [collapseRun, h]

theorem collapseRun_sep_two {c d : Char} (h : sepChar c = true) (t : List Char) :
    collapseRun (c :: d :: t) = ['-'] := by
  simp [collapseRun, h]

theorem sub2Aux_false_notsep {c : Char} (h : sepChar c = false)
    (rest : List Char) : sub2Aux false (c :: rest) = c :: sub2Aux false rest := by
  cases rest <;> simp [sub2Aux, h]

theorem sub2Aux_false_single_sep {c : Char} (h : sepChar c = true) :
    sub2Aux false [c] = [c] := by
  simp [sub2Aux, h]

theorem sub2Aux_false_sep_sep {c d : Char} (h : sepChar c = true)
    (hd : sepChar d = true) (t : List Char) :
    sub2Aux false (c :: d :: t) = '-' :: sub2Aux true (d :: t) := by
  conv_lhs => rw [sub2Aux]
  simp [h, hd]

theorem sub2Aux_false_sep_notsep {c d : Char} (h : sepChar c = true)
    (hd : sepChar d = false) (t : List Char) :
    sub2Aux false (c :: d :: t) = c :: sub2Aux false (d :: t) := by
  conv_lhs => rw [sub2Aux]
  simp [h, hd]

theorem sub2Aux_true_eq (l : List Char) :
    sub2Aux true l = sub2Aux false (l.dropWhile sepChar) := by
  induction l with
  | nil => rfl
  | cons c rest ih =>
    by_cases hc : sepChar c
    · rw [List.dropWhile_cons_of_pos hc]
      calc sub2Aux true (c :: rest) = sub2Aux true rest := by
            conv_lhs => rw [sub2Aux]
            simp [hc]
        _ = sub2Aux false (rest.dropWhile sepChar) := ih
    · rw [List.dropWhile_cons_of_neg hc]
      rw [sub2Aux_false_notsep (by simpa using hc)]
      conv_lhs => rw [sub2Aux]
      simp [hc]

theorem collapseSepRuns_split (rest : List Char) :
    rest.takeWhile (fun d => !sepChar d)
        ++ (classRuns sepChar (rest.dropWhile (fun d => !sepChar d))).flatMap
            collapseRun
      = collapseSepRuns rest := by
  cases rest with
  | nil => simp [collapseSepRuns, classRuns_nil]
  | cons d rest' =>
    by_cases hd : sepChar d
    · rw [List.takeWhile_cons_of_neg (by simp [hd]),
        List.dropWhile_cons_of_neg (by simp [hd])]
      simp [collapseSepRuns]
    · have hd' : sepChar d = false := by simpa using hd
      rw [List.takeWhile_cons_of_pos (by simp [hd']),
        List.dropWhile_cons_of_pos (by simp [hd'])]
      unfold collapseSepRuns
      rw [classRuns_cons]
      simp only [hd', beq_false, List.flatMap_cons, collapseRun_notsep hd']

theorem collapseSepRuns_cons_notsep {c : Char} (h : sepChar c = false)
    (rest : List Char) :
    collapseSepRuns (c :: rest) = c :: collapseSepRuns rest := by
  unfold collapseSepRuns
  rw [classRuns_cons]
  simp only [h, beq_false, List.flatMap_cons, collapseRun_notsep h]
  rw [List.cons_append, collapseSepRuns_split rest]
  rfl

theorem collapseSepRuns_single_sep {c : Char} (h : sepChar c = true) :
    collapseSepRuns [c] = [c] := by
  unfold collapseSepRuns
  rw [classRuns_cons]
  simp [classRuns_nil, collapseRun]

theorem collapseSepRuns_cons_sep_sep {c d : Char} (h : sepChar c = true)
    (hd : sepChar d = true) (t : List Char) :
    collapseSepRuns (c :: d :: t)
      = '-' :: collapseSepRuns ((d :: t).dropWhile sepChar) := by
  unfold collapseSepRuns
  rw [classRuns_cons]
  simp only [h, beq_true, List.flatMap_cons]
  rw [List.takeWhile_cons_of_pos hd, collapseRun_sep_two h]
  rw [List.dropWhile_cons_of_pos hd]
  rfl

theorem collapseSepRuns_cons_sep_notsep {c d : Char} (h : sepChar c = true)
    (hd : sepChar d = false) (t : List Char) :
    collapseSepRuns (c :: d :: t) = c :: collapseSepRuns (d :: t) := by
  unfold collapseSepRuns
  rw [classRuns_cons]
  simp only [h, beq_true, List.flatMap_cons]
  rw [List.takeWhile_cons_of_neg (by simp [hd]),
    List.dropWhile_cons_of_neg (by simp [hd])]
  simp [collapseRun]

theorem sub2Aux_eq_collapseSepRuns (l : List Char) :
    sub2Aux false l = collapseSepRuns l := by
  have main : ∀ n, ∀ l : List Char, l.length ≤ n →
      sub2Aux false l = collapseSepRuns l := by
    intro n
    induction n with
    | zero =>
      intro l hl
      match l with
      | [] => simp [sub2Aux, collapseSepRuns, classRuns_nil]
      | _ :: _ => simp at hl
    | succ n ih =>
      intro l hl
      match l with
      | [] => simp [sub2Aux, collapseSepRuns, classRuns_nil]
      | [c] =>
        by_cases hc : sepChar c
        · rw [sub2Aux_false_single_sep hc, collapseSepRuns_single_sep hc]
        · rw [sub2Aux_false_notsep (by simpa using hc),
            collapseSepRuns_cons_notsep (by simpa using hc)]
          simp [sub2Aux, collapseSepRuns, classRuns_nil]
      | c :: d :: t =>
        by_cases hc : sepChar c
        · by_cases hd : sepChar d
          · rw [sub2Aux_false_sep_sep hc hd, collapseSepRuns_cons_sep_sep hc hd,
              sub2Aux_true_eq]
            rw [ih ((d :: t).dropWhile sepChar) (by
              have := dropWhile_length_le sepChar (d :: t)
              simp only [List.length_cons] at hl this
              omega)]
          · rw [sub2Aux_false_sep_notsep hc (by simpa using hd),
              collapseSepRuns_cons_sep_notsep hc (by simpa using hd)]
            rw [ih (d :: t) (by simp only [List.length_cons] at hl ⊢; omega)]
        · rw [sub2Aux_false_notsep (by simpa using hc),
            collapseSepRuns_cons_notsep (by simpa using hc)]
          rw [ih (d :: t) (by simp only [List.length_cons] at hl ⊢; omega)]
  exact main l.length l le_rfl

theorem slugifyChars_eq_spec (l : List Char) :
    slugifyChars l = specSlugifyChars l := by
  unfold slugifyChars specSlugifyChars
  rw [sub1Aux_eq_replaceBadRuns, sub2Aux_eq_collapseSepRuns]

theorem slugify_eq_specSlugify (v : PyVal) : slugify v = specSlugify v := by
  cases v <;> simp [slugify, specSlugify, slugifyChars_eq_spec]

/-- C4: `slugify` equals the spec's algorithm (trim whitespace; replace every
maximal run outside `[A-Za-z0-9._-]` by one `-`; collapse runs of two or
more of `-_.` to one `-`; strip `-_.` at the ends), raises
`InvalidProjectNameError` exactly when the result is empty or the input is
not a string, and maps `"My Project"` to `"My-Project"` and `"***"` to the
error. -/
theorem slugify_matches_spec :
    (∀ v : PyVal, slugify v = specSlugify v)
    ∧ (∀ s : String,
        slugify (.str s) = .error .invalidProjectName
          ↔ specSlugifyChars s.data = [])
    ∧ (∀ v : PyVal, isStr v = false → slugify v = .error .invalidProjectName)
    ∧ slugify (.str "My Project") = .ok "My-Project"
    ∧ slugify (.str "***") = .error .invalidProjectName := by
  refine ⟨slugify_eq_specSlugify, ?_, ?_, rfl, rfl⟩
  · intro s
    rw [slugify_eq_specSlugify]
    by_cases hc : specSlugifyChars s.data = []
    · simp [specSlugify, hc]
    · simp [specSlugify, hc, List.isEmpty_iff]
  · intro v hv
    cases v <;> simp_all [slugify, isStr]

theorem slugify_matches_spec_witness :
    slugify (.int 7) = .error .invalidProjectName
    ∧ (slugify (.str "***") = .error .invalidProjectName
        ↔ specSlugifyChars "***".data = []) :=
  ⟨slugify_matches_spec.2.2.1 (.int 7) rfl, slugify_matches_spec.2.1 "***"⟩

theorem structuredPrompt_make_eq (model : String) (msgs : List PromptMessage)
    (temp mt rf : PyVal) (extra : PyFields) :
    StructuredPrompt.make model msgs temp mt rf extra
      = if model = "" ∨ msgs = [] ∨ ∃ k ∈ extra.keys, k ∈ RESERVED_KEYS
        then .error .promptValidation
        else .ok ⟨model, msgs, temp, mt, rf, extra⟩ := by
  unfold StructuredPrompt.make
  by_cases h1 : model = "" <;> by_cases h2 : msgs = ([] : List PromptMessage) <;>
    by_cases h3 : ∃ k ∈ extra.keys, k ∈ RESERVED_KEYS <;>
      simp [h1, h2, h3, List.any_eq_true]

/-- C6: `PromptMessage` and `StructuredPrompt` construction fail with
`PromptValidationError` — producing no object — exactly when the role is
outside the allowed set or the content is `None`, respectively when the
model is empty, the messages are empty, or an extra-parameter key lies in
the reserved set; otherwise construction succeeds. -/
theorem prompt_construction_validates :
    (∀ role content nm : PyVal,
      (∃ m, PromptMessage.make role content nm = .ok m)
        ↔ (role ∈ ALLOWED_ROLES ∧ content ≠ .none))
    ∧ (∀ role content nm : PyVal,
        PromptMessage.make role content nm = .error .promptValidation
          ↔ (role ∉ ALLOWED_ROLES ∨ content = .none))
    ∧ (∀ (model : String) (msgs : List PromptMessage)
        (temp mt rf : PyVal) (extra : PyFields),
        (∃ p, StructuredPrompt.make model msgs temp mt rf extra = .ok p)
          ↔ (model ≠ "" ∧ msgs ≠ [] ∧ ∀ k ∈ extra.keys, k ∉ RESERVED_KEYS))
    ∧ (∀ (model : String) (msgs : List PromptMessage)
        (temp mt rf : PyVal) (extra : PyFields),
        StructuredPrompt.make model msgs temp mt rf extra
            = .error .promptValidation
          ↔ (model = "" ∨ msgs = [] ∨ ∃ k ∈ extra.keys, k ∈ RESERVED_KEYS)) := by
  refine ⟨?_, ?_, ?_, ?_⟩
  · intro role content nm
    by_cases h1 : role ∈ ALLOWED_ROLES <;> by_cases h2 : content = PyVal.none <;>
      simp [PromptMessage.make, h1, h2]
  · intro role content nm
    by_cases h1 : role ∈ ALLOWED_ROLES <;> by_cases h2 : content = PyVal.none <;>
      simp [PromptMessage.make, h1, h2]
  · intro model msgs temp mt rf extra
    rw [structuredPrompt_make_eq]
    split
    next h =>
      constructor
      · rintro ⟨p, hp⟩
        cases hp
      · rintro ⟨ha, hb, hall⟩
        rcases h with h | h | ⟨k, hk, hr⟩
        · exact (ha h).elim
        · exact (hb h).elim
        · exact (hall k hk hr).elim
    next h =>
      push_neg at h
      exact ⟨fun _ => h, fun _ => ⟨_, rfl⟩⟩
  · intro model msgs temp mt rf extra
    rw [structuredPrompt_make_eq]
    split
    next h => exact ⟨fun _ => h, fun _ => rfl⟩
    next h => exact ⟨fun hco => (by cases hco), fun hr => absurd hr h⟩

/-- C7: `validate_file_structure` records exactly one issue and checks no
entries when the root does not exist; otherwise it checks every entry
independently, recording exactly one issue for an entry iff the entry is
absent or its actual kind mismatches the expected kind (trailing separator =
expected directory, else expected file). -/
theorem validate_file_structure_spec :
    ∀ (fs : FS) (root : String) (entries : List String),
      (fs.pathExists root = false →
        validate_file_structure fs root entries
          = [⟨"Root path does not exist: " ++ root, some root⟩])
      ∧ (fs.pathExists root = true →
          validate_file_structure fs root entries
              = entries.flatMap (entryIssues fs root)
            ∧ ∀ entry : String, (entryIssues fs root entry).length
                = if entryBad fs root entry then 1 else 0) := by
  intro fs root entries
  constructor
  · intro h
    unfold validate_file_structure
    simp [h]
  · intro h
    refine ⟨by unfold validate_file_structure; simp [h], ?_⟩
    intro entry
    unfold entryIssues entryBad
    by_cases hdir : endsWithSlash entry <;>
      by_cases hex : fs.pathExists (resolveEntry root (rstripSlashes entry)) <;>
        by_cases hid : fs.isDir (resolveEntry root (rstripSlashes entry)) <;>
          simp [hdir, hex, hid]

theorem validate_file_structure_spec_witness :
    validate_file_structure ⟨[], []⟩ "r" ["a"]
      = [⟨"Root path does not exist: r", some "r"⟩]
    ∧ validate_file_structure ⟨["r"], []⟩ "r" ["a", "b/"]
      = ["a", "b/"].flatMap (entryIssues ⟨["r"], []⟩ "r") :=
  ⟨(validate_file_structure_spec ⟨[], []⟩ "r" ["a"]).1 rfl,
   ((validate_file_structure_spec ⟨["r"], []⟩ "r" ["a", "b/"]).2 rfl).1⟩

theorem lookup_eq_none_of_hasKey_false {fields : PyFields} {k : String}
    (h : PyFields.hasKey k fields = false) : fields.lookup k = Option.none := by
  unfold PyFields.hasKey at h
  cases hl : fields.lookup k
  · rfl
  · rw [hl] at h
    cases h

theorem mapM_loop_nil :
    List.mapM.loop Choice.from_dict [] [] = Except.ok [] := rfl

/-- C8: parsing a successful response payload never fails because an
optional part is absent: without a `usage` key the result has `usage =
none`, without a `choices` key the result has an empty choice list, and a
(dict) payload lacking both keys always parses. -/
theorem response_optional_parts :
    (∀ (fields : PyFields) (r : OpenAIResponse),
      PyFields.hasKey "usage" fields = false →
      OpenAIResponse.from_dict (.dict fields) = .ok r → r.usage = Option.none)
    ∧ (∀ (fields : PyFields) (r : OpenAIResponse),
        PyFields.hasKey "choices" fields = false →
        OpenAIResponse.from_dict (.dict fields) = .ok r → r.choices = [])
    ∧ (∀ fields : PyFields,
        PyFields.hasKey "usage" fields = false →
        PyFields.hasKey "choices" fields = false →
        ∃ r, OpenAIResponse.from_dict (.dict fields) = .ok r
          ∧ r.usage = Option.none ∧ r.choices = []) := by
  refine ⟨?_, ?_, ?_⟩
  · intro fields r hu h
    have hl := lookup_eq_none_of_hasKey_false hu
    unfold OpenAIResponse.from_dict at h
    simp only [pyGetAttrD, bind, Except.bind, hl, Option.getD] at h
    split at h
    · cases h
    · split at h
      · cases h
      · injection h with h'
        subst h'
        rfl
  · intro fields r hc h
    have hl := lookup_eq_none_of_hasKey_false hc
    unfold OpenAIResponse.from_dict at h
    simp [pyGetAttrD, bind, Except.bind, hl, truthy, pyIter, PyList.toList,
      mapM_loop_nil] at h
    split at h
    · split at h
      · cases h
      · injection h with h'
        subst h'
        rfl
    · injection h with h'
      subst h'
      rfl
  · intro fields hu hc
    have hl1 := lookup_eq_none_of_hasKey_false hu
    have hl2 := lookup_eq_none_of_hasKey_false hc
    refine ⟨⟨pyStrOf ((fields.lookup "id").getD (.str "")),
            pyStrOf ((fields.lookup "model").getD (.str "")),
            [], Option.none, (fields.lookup "created").getD .none⟩, ?_, rfl, rfl⟩
    unfold OpenAIResponse.from_dict
    simp [pyGetAttrD, bind, Except.bind, hl1, hl2, truthy, pyIter, PyList.toList,
      mapM_loop_nil]
    rfl

theorem response_optional_parts_witness :
    (OpenAIResponse.from_dict (.dict (.cons "id" (.str "x") .nil))
        = .ok ⟨"x", "", [], Option.none, .none⟩)
    ∧ (∃ r, OpenAIResponse.from_dict (.dict (.cons "id" (.str "x") .nil))
        = .ok r ∧ r.usage = Option.none ∧ r.choices = []) :=
  ⟨rfl, response_optional_parts.2.2 (.cons "id" (.str "x") .nil) rfl rfl⟩

/-- C9: `save_project` refreshes the in-memory record's `updated_at` before
validating the metadata, so a `SerializationError` from `save` leaves no
file written and the filesystem untouched, while the passed project's
`updated_at` has already been set to the current time. -/
theorem save_refreshes_before_validation :
    ∀ (fs : FS) (p : Project) (now : Nat),
      (serializable p.metadata = false →
        save_project fs p now
          = (fs, { p with updated_at := now }, .error .projectSerialization))
      ∧ (∀ (fs' : FS) (p' : Project),
          save_project fs p now = (fs', p', .error .projectSerialization) →
          fs' = fs ∧ p' = { p with updated_at := now } ∧ p'.updated_at = now) := by
  intro fs p now
  constructor
  · intro hm
    unfold save_project
    simp [hm]
  · intro fs' p' h
    unfold save_project at h
    dsimp only at h
    split at h
    · split at h
      · injection h with h1 h2
        injection h2 with h3 h4
        cases h4
      · injection h with h1 h2
        injection h2 with h3 h4
        injection h4 with h5
        cases h5
    · injection h with h1 h2
      injection h2 with h3 h4
      refine ⟨h1.symm, h3.symm, ?_⟩
      rw [← h3]

theorem save_refreshes_before_validation_witness :
    save_project ⟨["r"], []⟩
        ⟨.str "x", "r/x", .str "", .dict (.cons "bad" .obj .nil), 3, 3⟩ 9
      = (⟨["r"], []⟩,
          ⟨.str "x", "r/x", .str "", .dict (.cons "bad" .obj .nil), 3, 9⟩,
          .error .projectSerialization) :=
  (save_refreshes_before_validation ⟨["r"], []⟩
    ⟨.str "x", "r/x", .str "", .dict (.cons "bad" .obj .nil), 3, 3⟩ 9).1 rfl

/-- C1 counterexample: on a store rooted at `r`, creating `"My Project"`
with non-serialisable metadata fails with `SerializationError`, yet the
project directory `r/My-Project` — absent beforehand — has been created by
the failing call (no file is written, though). -/
theorem create_serialization_still_creates_directory :
    (FS.isDir ⟨["r"], []⟩ "r/My-Project" = false)
    ∧ (create_project ⟨["r"], []⟩ "r" "My Project" ""
          (some (.dict (.cons "bad" .obj .nil))) false 0 0 1).2
        = .error .projectSerialization
    ∧ ((create_project ⟨["r"], []⟩ "r" "My Project" ""
          (some (.dict (.cons "bad" .obj .nil))) false 0 0 1).1).isDir
        "r/My-Project" = true
    ∧ ((create_project ⟨["r"], []⟩ "r" "My Project" ""
          (some (.dict (.cons "bad" .obj .nil))) false 0 0 1).1).files = [] :=
  ⟨rfl, rfl, rfl, rfl⟩

/-- C1 (amended): with a valid slug and no existing-project conflict,
`create_project` on non-serialisable metadata fails with
`SerializationError` before any *file* is written — the file map is
unchanged — but the project directory has already been created. -/
theorem create_serialization_no_file_write :
    ∀ (fs : FS) (root name desc : String) (meta : Option PyVal) (ow : Bool)
      (tc tu ts : Nat) (slug : String),
      slugify (.str name) = .ok slug →
      (fs.pathExists (joinPath root slug) && !ow) = false →
      serializable (meta.getD (.dict .nil)) = false →
      create_project fs root name desc meta ow tc tu ts
          = (fs.mkdir (joinPath root slug), .error .projectSerialization)
        ∧ (fs.mkdir (joinPath root slug)).files = fs.files
        ∧ (fs.mkdir (joinPath root slug)).isDir (joinPath root slug) = true := by
  intro fs root name desc meta ow tc tu ts slug hslug hfree hm
  exact ⟨create_project_serialization fs root name desc meta ow tc tu ts slug
      hslug hfree hm,
    FS.files_mkdir fs _, FS.isDir_mkdir_self fs _⟩

theorem create_serialization_no_file_write_witness :
    create_project ⟨["r"], []⟩ "r" "P" "" (some (.dict (.cons "bad" .obj .nil)))
        false 0 0 1
      = ((⟨["r"], []⟩ : FS).mkdir (joinPath "r" "P"),
          .error .projectSerialization)
    ∧ ((⟨["r"], []⟩ : FS).mkdir (joinPath "r" "P")).files = (⟨["r"], []⟩ : FS).files
    ∧ ((⟨["r"], []⟩ : FS).mkdir (joinPath "r" "P")).isDir (joinPath "r" "P") = true :=
  create_serialization_no_file_write ⟨["r"], []⟩ "r" "P" ""
    (some (.dict (.cons "bad" .obj .nil))) false 0 0 1 "P" rfl rfl rfl

/-- C2 counterexample: with a project directory present but a corrupted
(unparseable) metadata document, `load_project` raises the JSON parser's
decode error, not `SerializationError` — refuting the claim that a
truncated document surfaces as `SerializationError`. -/
theorem load_corrupt_raises_jsonDecode_not_serialization :
    load_project ⟨["r", "r/P"], [("r/P/project.json", .corruptText)]⟩ "r" "P"
        = .error .jsonDecode
    ∧ ¬ load_project ⟨["r", "r/P"], [("r/P/project.json", .corruptText)]⟩ "r" "P"
        = .error .projectSerialization :=
  ⟨rfl, by decide⟩

/-- C2 (amended): `load_project` raises `NotFoundError` when the directory
is absent and `NotInitializedError` when the document is absent; a document
body that does not parse as JSON raises the parser's `JSONDecodeError`
(not `SerializationError`); a document missing `created_at` raises
`NotInitializedError`; a malformed timestamp raises `SerializationError`;
and a document with valid timestamps but no `name` key raises a plain
`KeyError`. -/
theorem load_error_classification :
    ∀ (fs : FS) (root name slug : String),
      slugify (.str name) = .ok slug →
      ( (fs.pathExists (joinPath root slug) = false →
          load_project fs root name = .error .projectNotFound)
      ∧ (fs.pathExists (joinPath root slug) = true →
          fs.fileContent (joinPath (joinPath root slug) PROJECT_FILE_NAME)
            = Option.none →
          load_project fs root name = .error .projectNotInitialized)
      ∧ (fs.pathExists (joinPath root slug) = true →
          fs.fileContent (joinPath (joinPath root slug) PROJECT_FILE_NAME)
            = some .corruptText →
          load_project fs root name = .error .jsonDecode)
      ∧ (∀ fields : PyFields,
          fs.pathExists (joinPath root slug) = true →
          fs.fileContent (joinPath (joinPath root slug) PROJECT_FILE_NAME)
            = some (.jsonText (.dict fields)) →
          ( (fields.lookup "created_at" = Option.none →
              load_project fs root name = .error .projectNotInitialized)
          ∧ (∀ s : String, fields.lookup "created_at" = some (.str s) →
              fromisoformat s = Option.none →
              load_project fs root name = .error .projectSerialization)
          ∧ (∀ (s1 s2 : String) (t1 t2 : Nat),
              fields.lookup "created_at" = some (.str s1) →
              fromisoformat s1 = some t1 →
              fields.lookup "updated_at" = some (.str s2) →
              fromisoformat s2 = some t2 →
              fields.lookup "name" = Option.none →
              load_project fs root name = .error (.keyError "name"))))) := by
  intro fs root name slug hslug
  refine ⟨load_project_not_found fs root name slug hslug,
    load_project_not_initialized fs root name slug hslug,
    load_project_corrupt fs root name slug hslug, ?_⟩
  intro fields hex hfile
  have hdoc := load_project_doc fs root name slug (.dict fields) hslug hex hfile
  refine ⟨?_, ?_, ?_⟩
  · intro hc
    rw [hdoc, from_dict_missing_created fields hc]
    rfl
  · intro s hc hbad
    rw [hdoc, from_dict_bad_timestamp fields s hc hbad]
    rfl
  · intro s1 s2 t1 t2 hc ht1 hu ht2 hn
    rw [hdoc, from_dict_missing_name fields s1 s2 t1 t2 hc ht1 hu ht2 hn]
    rfl

theorem load_error_classification_witness :
    load_project ⟨["r"], []⟩ "r" "Missing" = .error .projectNotFound
    ∧ load_project ⟨["r", "r/P"], []⟩ "r" "P" = .error .projectNotInitialized
    ∧ load_project ⟨["r", "r/P"],
        [("r/P/project.json", .jsonText (.dict (.cons "created_at"
          (.str "not-a-date") .nil)))]⟩ "r" "P"
        = .error .projectSerialization :=
  ⟨((load_error_classification ⟨["r"], []⟩ "r" "Missing" "Missing" rfl).1 rfl),
   ((load_error_classification ⟨["r", "r/P"], []⟩ "r" "P" "P" rfl).2.1 rfl rfl),
   (((load_error_classification ⟨["r", "r/P"],
        [("r/P/project.json", .jsonText (.dict (.cons "created_at"
          (.str "not-a-date") .nil)))]⟩ "r" "P" "P" rfl).2.2.2
      (.cons "created_at" (.str "not-a-date") .nil) rfl rfl).2.1
      "not-a-date" rfl rfl)⟩

/-- C10: whenever `load_project` returns a record, its `path` field is the
store root joined with the slug recomputed from the name, whatever path
string the stored document carried. -/
theorem load_path_recomputed :
    ∀ (fs : FS) (root name : String) (q : Project),
      load_project fs root name = .ok q →
      ∃ slug, slugify (.str name) = .ok slug ∧ q.path = joinPath root slug := by
  intro fs root name q h
  unfold load_project project_path_for_name at h
  cases hs : slugify (.str name) with
  | error e =>
    rw [hs] at h
    simp [Except.map, Except.bind, bind] at h
  | ok slug =>
    rw [hs] at h
    simp only [Except.map, Except.bind, bind] at h
    refine ⟨slug, rfl, ?_⟩
    split at h
    · cases h
    · split at h
      · cases h
      · cases h
      · split at h
        · cases h
        · injection h with h'
          rw [← h']

theorem load_path_recomputed_witness :
    ∃ slug, slugify (.str "P") = .ok slug
      ∧ (⟨.str "P", "r/P", .str "", .dict .nil, 5, 7⟩ : Project).path
          = joinPath "r" slug :=
  load_path_recomputed
    ⟨["r", "r/P"],
      [("r/P/project.json", .jsonText (.dict (.cons "name" (.str "P")
        (.cons "path" (.str "somewhere/else") (.cons "created_at" (.str "5")
          (.cons "updated_at" (.str "7") .nil))))))]⟩
    "r" "P" ⟨.str "P", "r/P", .str "", .dict .nil, 5, 7⟩ rfl

/-- C5: a successful `create_project` followed by `load_project` on the same
store returns a record whose `description` and `metadata` are identical to
the ones passed to `create_project`. -/
theorem create_then_load_roundtrip :
    ∀ (fs : FS) (root name desc : String) (m : PyVal) (ow : Bool)
      (tc tu ts : Nat) (fs' : FS) (p : Project),
      create_project fs root name desc (some m) ow tc tu ts = (fs', .ok p) →
      ∃ q, load_project fs' root name = .ok q
        ∧ q.description = .str desc ∧ q.metadata = m := by
  intro fs root name desc m ow tc tu ts fs' p h
  obtain ⟨slug, hslug, hsave⟩ :=
    create_project_ok_inv fs root name desc (some m) ow tc tu ts fs' p h
  have hload := load_after_save (fs.mkdir (joinPath root slug))
    (Project.make (.str name) (joinPath root slug) (.str desc)
      ((some m).getD (.dict .nil)) tc tu) ts root name slug fs' p hslug rfl hsave
  obtain ⟨_, _, hp, _⟩ := save_project_ok_inv _ _ _ _ _ hsave
  refine ⟨p, hload, ?_, ?_⟩ <;> rw [hp] <;> rfl

theorem create_then_load_roundtrip_witness :
    ∃ q, load_project (create_project ⟨["r"], []⟩ "r" "My Project" "d"
        (some (.dict (.cons "k" (.str "v") .nil))) false 5 5 7).1 "r" "My Project"
      = .ok q
      ∧ q.description = .str "d" ∧ q.metadata = .dict (.cons "k" (.str "v") .nil) :=
  create_then_load_roundtrip ⟨["r"], []⟩ "r" "My Project" "d"
    (.dict (.cons "k" (.str "v") .nil)) false 5 5 7
    (create_project ⟨["r"], []⟩ "r" "My Project" "d"
      (some (.dict (.cons "k" (.str "v") .nil))) false 5 5 7).1
    ⟨.str "My Project", "r/My-Project", .str "d",
      .dict (.cons "k" (.str "v") .nil), 5, 7⟩ rfl

/-- C3: under a monotone clock, every record produced by the public
operations satisfies `created_at ≤ updated_at`; `updated_at` is refreshed to
the persist time by both persist operations (`create_project` sets it to
the save-time reading, `save_project` to its `now`) and never by
construction-only paths (default construction keeps its two clock readings,
and loading returns the stored timestamps unchanged); and a save followed
immediately by a load returns the same `updated_at` — it never decreases. -/
theorem timestamps_invariant :
    (∀ (name : PyVal) (path : String) (desc meta : PyVal) (t1 t2 : Nat),
      t1 ≤ t2 →
        (Project.make name path desc meta t1 t2).created_at = t1
        ∧ (Project.make name path desc meta t1 t2).updated_at = t2
        ∧ (Project.make name path desc meta t1 t2).created_at
            ≤ (Project.make name path desc meta t1 t2).updated_at)
    ∧ (∀ (fs : FS) (root name desc : String) (meta : Option PyVal) (ow : Bool)
        (tc tu ts : Nat) (fs' : FS) (p : Project),
        create_project fs root name desc meta ow tc tu ts = (fs', .ok p) →
        p.created_at = tc ∧ p.updated_at = ts
          ∧ (tc ≤ ts → p.created_at ≤ p.updated_at))
    ∧ (∀ (fs : FS) (p : Project) (now : Nat) (fs' : FS) (p' : Project)
        (r : Except PyErr Unit),
        save_project fs p now = (fs', p', r) →
        p'.updated_at = now ∧ p'.created_at = p.created_at
          ∧ (p.created_at ≤ now → p'.created_at ≤ p'.updated_at))
    ∧ (∀ (fs : FS) (p : Project) (now : Nat) (root name slug : String)
        (fs' : FS) (p' q : Project),
        slugify (.str name) = .ok slug →
        p.path = joinPath root slug →
        save_project fs p now = (fs', p', .ok ()) →
        load_project fs' root name = .ok q →
        q.updated_at = p'.updated_at ∧ q.created_at = p.created_at
          ∧ q.updated_at = now
          ∧ (p.created_at ≤ now → q.created_at ≤ q.updated_at)) := by
  refine ⟨?_, ?_, ?_, ?_⟩
  · intro name path desc meta t1 t2 h
    exact ⟨rfl, rfl, h⟩
  · intro fs root name desc meta ow tc tu ts fs' p h
    obtain ⟨slug, hslug, hsave⟩ :=
      create_project_ok_inv fs root name desc meta ow tc tu ts fs' p h
    obtain ⟨_, _, hp, _⟩ := save_project_ok_inv _ _ _ _ _ hsave
    subst hp
    exact ⟨rfl, rfl, fun hle => hle⟩
  · intro fs p now fs' p' r h
    unfold save_project at h
    dsimp only at h
    split at h
    · split at h
      · injection h with h1 h2
        injection h2 with h3 h4
        rw [← h3]
        exact ⟨rfl, rfl, fun hle => hle⟩
      · injection h with h1 h2
        injection h2 with h3 h4
        rw [← h3]
        exact ⟨rfl, rfl, fun hle => hle⟩
    · injection h with h1 h2
      injection h2 with h3 h4
      rw [← h3]
      exact ⟨rfl, rfl, fun hle => hle⟩
  · intro fs p now root name slug fs' p' q hslug hpath hsave hload
    have hload' := load_after_save fs p now root name slug fs' p' hslug hpath hsave
    rw [hload] at hload'
    injection hload' with hq
    obtain ⟨_, _, hp', _⟩ := save_project_ok_inv _ _ _ _ _ hsave
    subst hq
    subst hp'
    exact ⟨rfl, rfl, rfl, fun hle => hle⟩

theorem timestamps_invariant_witness :
    ((Project.make (.str "x") "r/x" (.str "") (.dict .nil) 2 3).created_at = 2
      ∧ (Project.make (.str "x") "r/x" (.str "") (.dict .nil) 2 3).updated_at = 3
      ∧ (Project.make (.str "x") "r/x" (.str "") (.dict .nil) 2 3).created_at
          ≤ (Project.make (.str "x") "r/x" (.str "") (.dict .nil) 2 3).updated_at)
    ∧ ((⟨.str "P", "r/P", .str "", .dict .nil, 5, 7⟩ : Project).created_at = 5
      ∧ (⟨.str "P", "r/P", .str "", .dict .nil, 5, 7⟩ : Project).updated_at = 7
      ∧ (5 ≤ 7 →
          (⟨.str "P", "r/P", .str "", .dict .nil, 5, 7⟩ : Project).created_at
            ≤ (⟨.str "P", "r/P", .str "", .dict .nil, 5, 7⟩ : Project).updated_at)) :=
  ⟨timestamps_invariant.1 (.str "x") "r/x" (.str "") (.dict .nil) 2 3 (by decide),
   timestamps_invariant.2.1 ⟨["r"], []⟩ "r" "P" "" Option.none false 5 5 7
     (create_project ⟨["r"], []⟩ "r" "P" "" Option.none false 5 5 7).1
     ⟨.str "P", "r/P", .str "", .dict .nil, 5, 7⟩ rfl⟩
